import Mathlib

/-!
# Verification of the Momento Challenge & Key-Revelation Engine

Shallow embedding of the key-splitting / minigame-based progressive key
disclosure subsystem:

* `src/core/challenges/minigames.py` (`KeyRevealManager`),
* `src/core/challenges/models.py` (`MinigameProgress`, `Challenge`),
* `src/routes/minigames.py` (the five minigame completion endpoints).

Embedding conventions:

* Python strings that are sliced / measured (keys, key parts, scramble words)
  are `List Char`; identifier-like strings (challenge ids, game types,
  messages, hints) are Lean `String`.
* The SQLAlchemy `minigame_progress` table is a `List MinigameProgress` in
  insertion order (`db_session.add` appends); `completed_at` timestamps are
  not modelled as no claim mentions them.
* Flask `session` entries are modelled as `Option` values threaded through
  the endpoint functions; `session.get` returning `None` is `none`.
* `random.choice` / `random.shuffle` are modelled by explicit parameters
  (an index, a stream of shuffle outcomes).
-/

/-- One row of the `minigame_progress` table
(`src/core/challenges/models.py`, class `MinigameProgress`). -/
structure MinigameProgress where
  user_id : Nat
  challenge_id : String
  minigame_type : String
  part_index : Nat
  revealed_part : List Char
deriving DecidableEq

/-- The persisted `minigame_progress` table, in insertion order. -/
abbrev Store := List MinigameProgress

/-- Row predicate for the `filter_by(user_id=…, challenge_id=…, minigame_type=…)`
query. -/
def tripleMatch (u : Nat) (c g : String) (r : MinigameProgress) : Bool :=
  r.user_id == u && r.challenge_id == c && r.minigame_type == g

/-- Embeds `MinigameProgress.has_completed`: `query.filter_by(...).first() is not None`
(`models.py` lines 30-37). `first()` on the filtered query is `List.find?`. -/
def has_completed (store : Store) (u : Nat) (c g : String) : Bool :=
  (store.find? (tripleMatch u c g)).isSome

/-- Embeds `MinigameProgress.mark_completed`: constructs a row and commits it
(`models.py` lines 39-51); `db_session.add` appends to the table. -/
def mark_completed (store : Store) (u : Nat) (c g : String)
    (pi : Nat) (rp : List Char) : Store :=
  store ++ [⟨u, c, g, pi, rp⟩]

/-- Embeds `KeyRevealManager.mark_game_completed` (`minigames.py` lines 131-141):
check-then-insert with `part_index` defaulting to 0. -/
def mark_game_completed (store : Store) (u : Nat) (c g : String)
    (rp : List Char) (pi : Nat := 0) : Store :=
  if has_completed store u c g then store
  else mark_completed store u c g pi rp

/-- Number of persisted rows for one `(user, challenge, minigame_type)` triple. -/
def countTriple (store : Store) (u : Nat) (c g : String) : Nat :=
  (store.filter (tripleMatch u c g)).length

/-- Embeds `self.minigame_types` set in `KeyRevealManager.__init__`. -/
def minigame_types : List String :=
  ["wheel", "quiz", "memory", "slider", "scramble"]

/-- One element of the list returned by `split_key`: the dict
`{'index': i, 'value': …, 'game_type': …, 'revealed': False}`. -/
structure KeyPart where
  index : Nat
  value : List Char
  game_type : String
  revealed : Bool
deriving DecidableEq

/-- The `for i in range(num_parts)` loop body of `split_key`
(`minigames.py` lines 104-114), recursing on the number of remaining
iterations.  `key[start:start + size]` is `(key.drop start).take size`. -/
def splitKeyLoop (key : List Char) (base_size remainder : Nat) :
    Nat → Nat → Nat → List KeyPart
  | _, _, 0 => []
  | i, start, rem + 1 =>
    let size := base_size + (if i < remainder then 1 else 0)
    if 0 < size then
      { index := i
        value := (key.drop start).take size
        game_type := minigame_types.getD (i % minigame_types.length) ""
        revealed := false } ::
        splitKeyLoop key base_size remainder (i + 1) (start + size) rem
    else
      splitKeyLoop key base_size remainder (i + 1) start rem

/-- Embeds `KeyRevealManager.split_key` (`minigames.py` lines 85-116). -/
def split_key (key : List Char) (num_parts : Nat := 5) : List KeyPart :=
  if key = [] then []
  else
    splitKeyLoop key (key.length / num_parts) (key.length % num_parts)
      0 0 num_parts

/-- Value type of the per-game dict built by `get_user_progress`
(`minigames.py` lines 118-129); `completed_at` is dropped (unused by claims). -/
structure ProgressEntry where
  completed : Bool
  revealed_part : List Char
deriving DecidableEq

/-- Embeds `KeyRevealManager.get_user_progress`, viewed as the lookup
`result.get(game_type)`.  The Python loop writes every `(user, challenge)`
row into a dict keyed by `minigame_type`, so the last matching row wins:
`find?` on the reversed filtered list. -/
def get_user_progress (store : Store) (u : Nat) (c : String) (g : String) :
    Option ProgressEntry :=
  match ((store.filter
      (fun r => r.user_id == u && r.challenge_id == c)).reverse.find?
      (fun r => r.minigame_type == g)) with
  | none => none
  | some r => some { completed := true, revealed_part := r.revealed_part }

/-- The test `game_type in progress and progress[game_type].get('completed')`
made by `get_revealed_key`. -/
def progressCompleted (store : Store) (u : Nat) (c : String) (g : String) :
    Bool :=
  match get_user_progress store u c g with
  | some e => e.completed
  | none => false

/-- Embeds `KeyRevealManager.get_revealed_key` (`minigames.py` lines 143-158):
the `result += …` loop over `key_parts`. -/
def get_revealed_key (store : Store) (u : Nat) (c : String) :
    List KeyPart → List Char
  | [] => []
  | p :: ps =>
    (if progressCompleted store u c p.game_type then p.value
     else List.replicate p.value.length '*') ++
    get_revealed_key store u c ps

/-- JSON-ish value type for the `Challenge.to_dict` payload. -/
inductive DictVal where
  | str : String → DictVal
  | strList : List String → DictVal
  | bool : Bool → DictVal
deriving DecidableEq

/-- The `challenges` table row (`models.py`, class `Challenge`). -/
structure Challenge where
  id : String
  type : String
  difficulty : String
  description : String
  points : String
  hints : List String
  encrypted_message : String
  flag : String
  is_active : Bool
  files : Option (List String)
deriving DecidableEq

/-- Embeds `Challenge.to_dict` (`models.py` lines 67-80): the returned dict, in
source order.  The `exclude_flag` parameter is received but never read. -/
def Challenge.to_dict (c : Challenge) (exclude_flag : Bool := false) :
    List (String × DictVal) :=
  [("id", .str c.id),
   ("type", .str c.type),
   ("difficulty", .str c.difficulty),
   ("description", .str c.description),
   ("points", .str c.points),
   ("hints", .strList c.hints),
   ("encrypted_message", .str c.encrypted_message),
   ("flag", .str c.flag),
   ("is_active", .bool c.is_active),
   ("files", .strList (c.files.getD []))]

/-- One entry of `QUIZ_QUESTIONS` (`minigames.py` lines 11-62). -/
structure QuizQuestion where
  question : String
  options : List String
  answer : Nat
deriving DecidableEq

/-- The `for i, q in enumerate(questions)` loop of `verify_quiz_answers`,
carrying the running index. -/
def verifyQuizLoop : List QuizQuestion → List Nat → Nat → Nat
  | [], _, _ => 0
  | q :: qs, answers, i =>
    (if h : i < answers.length then
      (if answers.get ⟨i, h⟩ == q.answer then 1 else 0)
     else 0) + verifyQuizLoop qs answers (i + 1)

/-- Embeds `KeyRevealManager.verify_quiz_answers` (`minigames.py` lines 191-197):
returns `(correct_count, total)`. -/
def verify_quiz_answers (questions : List QuizQuestion) (answers : List Nat) :
    Nat × Nat :=
  (verifyQuizLoop questions answers 0, questions.length)

/-- Embeds `KeyRevealManager.verify_slider_solution` (`minigames.py` lines 246-249):
`puzzle_state == list(range(1, 9)) + [0]`.  JSON numbers are `Int`. -/
def verify_slider_solution (puzzle_state : List Int) : Bool :=
  puzzle_state == [1, 2, 3, 4, 5, 6, 7, 8, 0]

/-- Embeds `SCRAMBLE_WORDS` (`minigames.py` lines 65-76). -/
def SCRAMBLE_WORDS : List (String × String) :=
  [("ENCRYPTION", "Process of encoding data"),
   ("DECRYPTION", "Process of decoding data"),
   ("ALGORITHM", "Set of rules for calculations"),
   ("CIPHERTEXT", "Encrypted message"),
   ("PLAINTEXT", "Unencrypted message"),
   ("SYMMETRIC", "Same key for encrypt/decrypt"),
   ("ASYMMETRIC", "Different keys for encrypt/decrypt"),
   ("HASHING", "One-way function"),
   ("SECURITY", "Protection from threats"),
   ("CRYPTOGRAPHY", "Science of secret writing")]

/-- Result dict of `generate_scramble`. -/
structure ScrambleOut where
  scrambled : String
  word : String
  hint : String
deriving DecidableEq

/-- The `while ''.join(scrambled) == word: random.shuffle(scrambled)` loop:
given the stream of shuffle outcomes, return the first one differing from
the word (`none` if the provided stream is exhausted first). -/
def findScramble (word : List Char) : List (List Char) → Option (List Char)
  | [] => none
  | s :: rest => if s = word then findScramble word rest else some s

/-- The `(word, hint)` pair selected by `random.choice(SCRAMBLE_WORDS)`,
with the random draw modelled by an arbitrary index reduced mod the list
length. -/
def chosenPair (pick : Nat) : String × String :=
  SCRAMBLE_WORDS.getD (pick % SCRAMBLE_WORDS.length) ("", "")

/-- Embeds `KeyRevealManager.generate_scramble` (`minigames.py` lines 252-266), with
`random.choice` modelled by `chosenPair` and `random.shuffle` by the stream
`shuffles` of its successive outcomes. -/
def generate_scramble (pick : Nat) (shuffles : List (List Char)) :
    Option ScrambleOut :=
  match findScramble (chosenPair pick).1.toList shuffles with
  | none => none
  | some s =>
    some { scrambled := String.mk s, word := (chosenPair pick).1,
           hint := (chosenPair pick).2 }

/-- Embeds `KeyRevealManager.verify_scramble` (`minigames.py` lines 268-270). -/
def verify_scramble (submitted correct : String) : Bool :=
  submitted.toUpper.trim == correct.toUpper

/-! ## The five completion/submission endpoints (`src/routes/minigames.py`)

Each endpoint takes the authenticated user id, the challenge id, the
relevant session entry, any request body fields, and the progress store;
it returns the JSON response, the new store, and the new session entry. -/

/-- The fields jsonify'd by the minigame completion endpoints; fields a
given endpoint does not set stay `none`. -/
structure GameResp where
  success : Bool
  message : String
  revealed_part : Option (List Char) := none
  correct : Option Nat := none
  total : Option Nat := none
  word : Option String := none
deriving DecidableEq

/-- Embeds `wheel_complete` (`routes/minigames.py` lines 112-132).  Python's
`if not key_part` is falsy on both a missing session entry and an empty
string. -/
def wheel_complete (u : Nat) (c : String) (sess : Option (List Char))
    (store : Store) : GameResp × Store × Option (List Char) :=
  match sess with
  | none => ({ success := false, message := "Invalid session" }, store, none)
  | some key_part =>
    if key_part = [] then
      ({ success := false, message := "Invalid session" }, store, some key_part)
    else
      ({ success := true, revealed_part := some key_part,
         message := "Key part revealed: " ++ String.mk key_part },
       mark_game_completed store u c "wheel" key_part, none)

/-- The dict stored in `session[f'quiz_{challenge_id}']`. -/
structure QuizSession where
  questions : List QuizQuestion
  key_part : List Char
deriving DecidableEq

/-- Embeds `quiz_submit` (`routes/minigames.py` lines 173-206). -/
def quiz_submit (u : Nat) (c : String) (sess : Option QuizSession)
    (answers : List Nat) (store : Store) :
    GameResp × Store × Option QuizSession :=
  match sess with
  | none => ({ success := false, message := "Invalid session" }, store, none)
  | some qd =>
    let ct := verify_quiz_answers qd.questions answers
    if 2 ≤ ct.1 then
      ({ success := true, correct := some ct.1, total := some ct.2,
         revealed_part := some qd.key_part,
         message := "Correct! Key part: " ++ String.mk qd.key_part },
       mark_game_completed store u c "quiz" qd.key_part, none)
    else
      ({ success := false, correct := some ct.1, total := some ct.2,
         message := "You got " ++ toString ct.1 ++ "/" ++ toString ct.2 ++
           ". Need at least 2 correct!" },
       store, some qd)

/-- Embeds `memory_complete` (`routes/minigames.py` lines 239-256). -/
def memory_complete (u : Nat) (c : String) (sess : Option (List Char))
    (store : Store) : GameResp × Store × Option (List Char) :=
  match sess with
  | none => ({ success := false, message := "Invalid session" }, store, none)
  | some key_part =>
    if key_part = [] then
      ({ success := false, message := "Invalid session" }, store, some key_part)
    else
      ({ success := true, revealed_part := some key_part,
         message := "Key part revealed: " ++ String.mk key_part },
       mark_game_completed store u c "memory" key_part, none)

/-- Embeds `slider_complete` (`routes/minigames.py` lines 289-309). -/
def slider_complete (u : Nat) (c : String) (sess : Option (List Char))
    (state : List Int) (store : Store) :
    GameResp × Store × Option (List Char) :=
  match sess with
  | none => ({ success := false, message := "Invalid session" }, store, none)
  | some key_part =>
    if key_part = [] then
      ({ success := false, message := "Invalid session" }, store, some key_part)
    else if verify_slider_solution state then
      ({ success := true, revealed_part := some key_part,
         message := "Key part revealed: " ++ String.mk key_part },
       mark_game_completed store u c "slider" key_part, none)
    else
      ({ success := false, message := "Puzzle not solved yet!" },
       store, some key_part)

/-- The dict stored in `session[f'scramble_{challenge_id}']`. -/
structure ScrambleSession where
  word : String
  key_part : List Char
deriving DecidableEq

/-- Embeds `scramble_submit` (`routes/minigames.py` lines 346-368). -/
def scramble_submit (u : Nat) (c : String) (sess : Option ScrambleSession)
    (answer : String) (store : Store) :
    GameResp × Store × Option ScrambleSession :=
  match sess with
  | none => ({ success := false, message := "Invalid session" }, store, none)
  | some sd =>
    if verify_scramble answer sd.word then
      ({ success := true, revealed_part := some sd.key_part,
         word := some sd.word,
         message := "Correct! Key part: " ++ String.mk sd.key_part },
       mark_game_completed store u c "scramble" sd.key_part, none)
    else
      ({ success := false, message := "Incorrect! Try again." },
       store, some sd)

/-! ## Theorems -/

/-- Any row appended by `mark_game_completed` carries the `part_index` it was
called with; all other rows of the result were already in the store. -/
theorem mem_mark_game_completed {store : Store} {u : Nat} {c g : String}
    {rp : List Char} {pi : Nat} {r : MinigameProgress}
    (h : r ∈ mark_game_completed store u c g rp pi) :
    r ∈ store ∨ r.part_index = pi := by
  unfold mark_game_completed mark_completed at h
  split at h
  · exact Or.inl h
  · rcases List.mem_append.1 h with h | h
    · exact Or.inl h
    · rcases List.mem_singleton.1 h with rfl
      exact Or.inr rfl

/-- C5: For every `Challenge` and for both values of the `exclude_flag`
argument, `Challenge.to_dict` returns a dictionary containing the `'flag'`
key with the stored flag value; the `exclude_flag` parameter has no effect
on the output. -/
theorem C5_to_dict_always_includes_flag (c : Challenge) (b b' : Bool) :
    ("flag", DictVal.str c.flag) ∈ c.to_dict b ∧
    c.to_dict b = c.to_dict b' := by
  constructor
  · simp [Challenge.to_dict]
  · rfl

/-- C8: `verify_slider_solution` accepts exactly the canonical list
`[1,2,3,4,5,6,7,8,0]` and rejects every other list. -/
theorem C8_slider_exact_solution (s : List Int) :
    verify_slider_solution s = true ↔ s = [1, 2, 3, 4, 5, 6, 7, 8, 0] := by
  simp [verify_slider_solution]

/-- C8 witness: the canonical solved state is accepted, and a rotation of it
is rejected. -/
theorem C8_slider_exact_solution_witness :
    verify_slider_solution [1, 2, 3, 4, 5, 6, 7, 8, 0] = true ∧
    verify_slider_solution [2, 3, 4, 5, 6, 7, 8, 0, 1] ≠ true := by
  refine ⟨(C8_slider_exact_solution _).mpr rfl, fun h => ?_⟩
  have := (C8_slider_exact_solution _).mp h
  simp at this

/-- C6: Each of the five completion/submission endpoints, when no session
entry exists for the `(challenge, game)` pair, answers `success = False`
with message `'Invalid session'` and leaves the progress store unchanged. -/
theorem C6_no_session_rejected (u : Nat) (c : String) (store : Store)
    (answers : List Nat) (state : List Int) (answer : String) :
    ((wheel_complete u c none store).1.success = false ∧
     (wheel_complete u c none store).1.message = "Invalid session" ∧
     (wheel_complete u c none store).2.1 = store) ∧
    ((quiz_submit u c none answers store).1.success = false ∧
     (quiz_submit u c none answers store).1.message = "Invalid session" ∧
     (quiz_submit u c none answers store).2.1 = store) ∧
    ((memory_complete u c none store).1.success = false ∧
     (memory_complete u c none store).1.message = "Invalid session" ∧
     (memory_complete u c none store).2.1 = store) ∧
    ((slider_complete u c none state store).1.success = false ∧
     (slider_complete u c none state store).1.message = "Invalid session" ∧
     (slider_complete u c none state store).2.1 = store) ∧
    ((scramble_submit u c none answer store).1.success = false ∧
     (scramble_submit u c none answer store).1.message = "Invalid session" ∧
     (scramble_submit u c none answer store).2.1 = store) :=
  ⟨⟨rfl, rfl, rfl⟩, ⟨rfl, rfl, rfl⟩, ⟨rfl, rfl, rfl⟩,
   ⟨rfl, rfl, rfl⟩, ⟨rfl, rfl, rfl⟩⟩

/-- C10: Every `MinigameProgress` row created through any of the five web
completion endpoints has `part_index = 0`: no route passes `part_index`, and
`mark_game_completed` defaults it to 0. -/
theorem C10_part_index_always_zero (u : Nat) (c : String) (store : Store)
    (sessW sessM sessS : Option (List Char)) (sessQ : Option QuizSession)
    (sessSc : Option ScrambleSession)
    (answers : List Nat) (state : List Int) (answer : String) :
    (∀ r ∈ (wheel_complete u c sessW store).2.1,
      r ∈ store ∨ r.part_index = 0) ∧
    (∀ r ∈ (quiz_submit u c sessQ answers store).2.1,
      r ∈ store ∨ r.part_index = 0) ∧
    (∀ r ∈ (memory_complete u c sessM store).2.1,
      r ∈ store ∨ r.part_index = 0) ∧
    (∀ r ∈ (slider_complete u c sessS state store).2.1,
      r ∈ store ∨ r.part_index = 0) ∧
    (∀ r ∈ (scramble_submit u c sessSc answer store).2.1,
      r ∈ store ∨ r.part_index = 0) := by
  refine ⟨?_, ?_, ?_, ?_, ?_⟩ <;> intro r hr
  · cases sessW with
    | none => exact Or.inl hr
    | some kp =>
      by_cases hkp : kp = [] <;> simp only [wheel_complete, hkp,
        if_pos, if_neg, ite_true, ite_false, reduceIte] at hr
      · exact Or.inl hr
      · exact mem_mark_game_completed hr
  · cases sessQ with
    | none => exact Or.inl hr
    | some qd =>
      by_cases hq : 2 ≤ (verify_quiz_answers qd.questions answers).1 <;>
        simp only [quiz_submit, hq, ite_true, ite_false, reduceIte] at hr
      · exact mem_mark_game_completed hr
      · exact Or.inl hr
  · cases sessM with
    | none => exact Or.inl hr
    | some kp =>
      by_cases hkp : kp = [] <;> simp only [memory_complete, hkp,
        ite_true, ite_false, reduceIte] at hr
      · exact Or.inl hr
      · exact mem_mark_game_completed hr
  · cases sessS with
    | none => exact Or.inl hr
    | some kp =>
      by_cases hkp : kp = []
      · simp only [slider_complete, hkp, ite_true, reduceIte] at hr
        exact Or.inl hr
      · by_cases hv : verify_slider_solution state <;>
          simp only [slider_complete, hkp, hv, ite_true, ite_false,
            reduceIte] at hr
        · exact mem_mark_game_completed hr
        · exact Or.inl hr
  · cases sessSc with
    | none => exact Or.inl hr
    | some sd =>
      by_cases hv : verify_scramble answer sd.word <;>
        simp only [scramble_submit, hv, ite_true, ite_false, reduceIte] at hr
      · exact mem_mark_game_completed hr
      · exact Or.inl hr

/-- C10 witness: completing the wheel game on an empty store creates the row
`⟨1, "aes_easy", "wheel", 0, "SE"⟩`, and that row has `part_index = 0`. -/
theorem C10_part_index_always_zero_witness :
    (⟨1, "aes_easy", "wheel", 0, ['S', 'E']⟩ : MinigameProgress) ∈
      (wheel_complete 1 "aes_easy" (some ['S', 'E']) []).2.1 ∧
    ((⟨1, "aes_easy", "wheel", 0, ['S', 'E']⟩ : MinigameProgress) ∈
      ([] : Store) ∨
     (⟨1, "aes_easy", "wheel", 0, ['S', 'E']⟩ : MinigameProgress).part_index
       = 0) := by
  constructor
  · decide
  · exact (C10_part_index_always_zero 1 "aes_easy" []
      (some ['S', 'E']) none none none none [] [] "").1 _ (by decide)

/-- Sum of the computed part sizes over loop iterations `i, i+1, …` for the
given number of remaining iterations. -/
def sumSizes (b r : Nat) : Nat → Nat → Nat
  | _, 0 => 0
  | i, rem + 1 => (b + if i < r then 1 else 0) + sumSizes b r (i + 1) rem

/-- Closed form of `sumSizes`. -/
theorem sumSizes_eq (b r : Nat) :
    ∀ rem i, sumSizes b r i rem = rem * b + (min r (i + rem) - min r i) := by
  intro rem
  induction rem with
  | zero => intro i; simp [sumSizes]
  | succ rem ih =>
    intro i
    rw [sumSizes, ih (i + 1)]
    by_cases h : i < r <;> simp only [h, if_true, if_false, ite_true,
      ite_false, reduceIte] <;> ring_nf <;> omega

/-- Over the full loop the part sizes sum to the key length (for a positive
part count). -/
theorem sumSizes_total (len n : Nat) (hn : 1 ≤ n) :
    sumSizes (len / n) (len % n) 0 n = len := by
  rw [sumSizes_eq]
  have hmod : len % n < n := Nat.mod_lt _ hn
  have h1 : min (len % n) (0 + n) = len % n := by omega
  have h2 : min (len % n) 0 = 0 := by omega
  rw [h1, h2, Nat.sub_zero]
  exact Nat.div_add_mod len n

/-- Concatenating the values produced by `splitKeyLoop` yields the contiguous
slice of the key starting at `start` whose length is the sum of the computed
sizes. -/
theorem splitKeyLoop_flatten (key : List Char) (b r : Nat) :
    ∀ rem i start,
      ((splitKeyLoop key b r i start rem).map KeyPart.value).flatten =
        (key.drop start).take (sumSizes b r i rem) := by
  intro rem
  induction rem with
  | zero => intro i start; simp [splitKeyLoop, sumSizes]
  | succ rem ih =>
    intro i start
    rw [splitKeyLoop, sumSizes]
    by_cases hs : 0 < b + (if i < r then 1 else 0)
    · simp only [hs, if_true, ite_true, reduceIte, List.map_cons,
        List.flatten_cons, ih]
      conv_rhs => rw [List.take_add]
      rw [List.drop_drop]
    · simp only [hs, if_false, ite_false, reduceIte, ih]
      have hz : b + (if i < r then 1 else 0) = 0 := by omega
      rw [hz, Nat.zero_add]

/-- Concatenating the `value` fields of `split_key key n` in order
reconstructs `key`, for any positive part count. -/
theorem split_key_flatten (key : List Char) (n : Nat) (hn : 1 ≤ n) :
    ((split_key key n).map KeyPart.value).flatten = key := by
  by_cases hk : key = []
  · subst hk; simp [split_key]
  · rw [split_key, if_neg hk, splitKeyLoop_flatten, sumSizes_total _ _ hn,
      List.drop_zero, List.take_length]

/-- Shape of every part produced by `splitKeyLoop`: its value has exactly the
computed size (positive), its game type follows the 5-cycle on its index, and
its index lies in the iteration range — provided the sizes still to be
consumed fit in the key. -/
theorem splitKeyLoop_mem_spec (key : List Char) (b r : Nat) :
    ∀ rem i start, start + sumSizes b r i rem ≤ key.length →
      ∀ p ∈ splitKeyLoop key b r i start rem,
        p.value.length = b + (if p.index < r then 1 else 0) ∧
        0 < p.value.length ∧
        p.game_type =
          minigame_types.getD (p.index % minigame_types.length) "" ∧
        i ≤ p.index ∧ p.index < i + rem := by
  intro rem
  induction rem with
  | zero => intro i start _ p hp; simp [splitKeyLoop] at hp
  | succ rem ih =>
    intro i start hle p hp
    rw [sumSizes] at hle
    rw [splitKeyLoop] at hp
    by_cases hs : 0 < b + (if i < r then 1 else 0)
    · simp only [hs, ite_true, reduceIte] at hp
      rcases List.mem_cons.1 hp with rfl | hp
      · refine ⟨?_, ?_, rfl, Nat.le_refl _, show i < i + (rem + 1) by omega⟩
        · simp only [List.length_take, List.length_drop]
          omega
        · simp only [List.length_take, List.length_drop]
          omega
      · have h' := ih (i + 1) (start + (b + if i < r then 1 else 0))
          (by omega) p hp
        exact ⟨h'.1, h'.2.1, h'.2.2.1, by omega, by omega⟩
    · simp only [hs, ite_false, reduceIte] at hp
      have hz : b + (if i < r then 1 else 0) = 0 := by omega
      have h' := ih (i + 1) start (by omega) p hp
      exact ⟨h'.1, h'.2.1, h'.2.2.1, by omega, by omega⟩

/-- Completeness of `splitKeyLoop`: every in-range index whose computed size
is positive appears as the index of some produced part. -/
theorem splitKeyLoop_exists (key : List Char) (b r : Nat) :
    ∀ rem i start j, i ≤ j → j < i + rem →
      0 < b + (if j < r then 1 else 0) →
      ∃ p ∈ splitKeyLoop key b r i start rem, p.index = j := by
  intro rem
  induction rem with
  | zero => intro i start j h1 h2 _; omega
  | succ rem ih =>
    intro i start j h1 h2 h3
    rw [splitKeyLoop]
    by_cases hij : j = i
    · subst hij
      simp only [h3, ite_true, reduceIte]
      exact ⟨_, List.mem_cons_self _ _, rfl⟩
    · by_cases hs : 0 < b + (if i < r then 1 else 0)
      · simp only [hs, ite_true, reduceIte]
        obtain ⟨p, hp, hpj⟩ := ih (i + 1) (start + (b + if i < r then 1 else 0)) j
          (by omega) (by omega) h3
        exact ⟨p, List.mem_cons_of_mem _ hp, hpj⟩
      · simp only [hs, ite_false, reduceIte]
        exact ih (i + 1) start j (by omega) (by omega) h3

/-- The completion test made by `get_revealed_key` via `get_user_progress`
coincides with `MinigameProgress.has_completed` (every entry the progress
dict holds has `completed = True`). -/
theorem progressCompleted_eq_has_completed (store : Store) (u : Nat)
    (c g : String) :
    progressCompleted store u c g = has_completed store u c g := by
  have h1 : progressCompleted store u c g =
      ((store.filter
        (fun r => r.user_id == u && r.challenge_id == c)).reverse.find?
        (fun r => r.minigame_type == g)).isSome := by
    unfold progressCompleted get_user_progress
    cases hf : ((store.filter
        (fun r => r.user_id == u && r.challenge_id == c)).reverse.find?
        (fun r => r.minigame_type == g)) <;> simp [hf]
  rw [h1, Bool.eq_iff_iff]
  simp only [List.find?_isSome, List.mem_reverse, List.mem_filter,
    has_completed, tripleMatch, Bool.and_eq_true, beq_iff_eq]
  tauto

/-- The revealed key has as many characters as the parts' values combined. -/
theorem get_revealed_key_length (store : Store) (u : Nat) (c : String)
    (parts : List KeyPart) :
    (get_revealed_key store u c parts).length =
      (parts.map fun p => p.value.length).sum := by
  induction parts with
  | nil => rfl
  | cons p ps ih =>
    rw [get_revealed_key, List.length_append, ih, List.map_cons,
      List.sum_cons]
    congr 1
    split
    · rfl
    · simp

/-- With no completed minigame at all, every part is masked. -/
theorem get_revealed_key_all_masked (store : Store) (u : Nat) (c : String)
    (parts : List KeyPart) (h : ∀ g, has_completed store u c g = false) :
    get_revealed_key store u c parts =
      List.replicate ((parts.map fun p => p.value.length).sum) '*' := by
  induction parts with
  | nil => rfl
  | cons p ps ih =>
    have hc : progressCompleted store u c p.game_type = false := by
      rw [progressCompleted_eq_has_completed]; exact h _
    rw [get_revealed_key, ih, List.map_cons, List.sum_cons,
      List.replicate_add]
    simp [hc]

/-- With every part's game type completed, the parts are emitted verbatim. -/
theorem get_revealed_key_all_revealed (store : Store) (u : Nat) (c : String)
    (parts : List KeyPart)
    (h : ∀ p ∈ parts, has_completed store u c p.game_type = true) :
    get_revealed_key store u c parts = (parts.map KeyPart.value).flatten := by
  induction parts with
  | nil => rfl
  | cons p ps ih =>
    have hc : progressCompleted store u c p.game_type = true := by
      rw [progressCompleted_eq_has_completed]
      exact h p (List.mem_cons_self _ _)
    rw [get_revealed_key, ih fun q hq => h q (List.mem_cons_of_mem _ hq),
      List.map_cons, List.flatten_cons]
    simp [hc]

/-- The round-robin game type of any loop index is one of the five minigame
types. -/
theorem getD_mod_mem (k : Nat) :
    minigame_types.getD (k % minigame_types.length) "" ∈ minigame_types := by
  have h : k % minigame_types.length < minigame_types.length :=
    Nat.mod_lt _ (by decide)
  rw [List.getD_eq_getElem _ _ h]
  exact List.getElem_mem h

/-- C1: `get_revealed_key` on the parts of `split_key` emits one character
per key character — its length is the sum of the part lengths, i.e. the full
key's length; with zero completed minigames it is all `'*'`, and with all
five game types completed it is the original key. -/
theorem C1_get_revealed_key_shape (store : Store) (u : Nat) (c : String)
    (key : List Char) (n : Nat) :
    (get_revealed_key store u c (split_key key n)).length =
      ((split_key key n).map fun p => p.value.length).sum ∧
    (1 ≤ n →
      (get_revealed_key store u c (split_key key n)).length = key.length) ∧
    (1 ≤ n → (∀ g, has_completed store u c g = false) →
      get_revealed_key store u c (split_key key n) =
        List.replicate key.length '*') ∧
    (1 ≤ n → (∀ g ∈ minigame_types, has_completed store u c g = true) →
      get_revealed_key store u c (split_key key n) = key) := by
  have hsum : 1 ≤ n →
      ((split_key key n).map fun p => p.value.length).sum = key.length := by
    intro hn
    have h2 := congrArg List.length (split_key_flatten key n hn)
    rw [List.length_flatten, List.map_map] at h2
    exact h2
  refine ⟨get_revealed_key_length store u c _, ?_, ?_, ?_⟩
  · intro hn; rw [get_revealed_key_length, hsum hn]
  · intro hn h; rw [get_revealed_key_all_masked store u c _ h, hsum hn]
  · intro hn h
    rw [get_revealed_key_all_revealed store u c _ ?_,
      split_key_flatten key n hn]
    intro p hp
    apply h
    by_cases hk : key = []
    · subst hk; rw [split_key, if_pos rfl] at hp
      exact absurd hp (List.not_mem_nil p)
    · rw [split_key, if_neg hk] at hp
      have hm := splitKeyLoop_mem_spec key (key.length / n)
        (key.length % n) n 0 0
        (le_of_eq (by rw [Nat.zero_add, sumSizes_total _ _ hn])) p hp
      rw [hm.2.2.1]
      exact getD_mod_mem _

/-- C1 witness: for the key `"SECRET12"` split five ways, a user with no
progress sees eight `'*'` and a user who completed all five games sees the
key. -/
theorem C1_get_revealed_key_shape_witness :
    (1 ≤ 5 ∧ (∀ g, has_completed [] 1 "aes_easy" g = false)) ∧
    get_revealed_key [] 1 "aes_easy" (split_key "SECRET12".toList 5) =
      List.replicate "SECRET12".toList.length '*' ∧
    get_revealed_key
      [⟨1, "aes_easy", "wheel", 0, ['S', 'E']⟩,
       ⟨1, "aes_easy", "quiz", 1, ['C', 'R']⟩,
       ⟨1, "aes_easy", "memory", 2, ['E', 'T']⟩,
       ⟨1, "aes_easy", "slider", 3, ['1']⟩,
       ⟨1, "aes_easy", "scramble", 4, ['2']⟩]
      1 "aes_easy" (split_key "SECRET12".toList 5) = "SECRET12".toList :=
  ⟨⟨by decide, fun g => rfl⟩,
   (C1_get_revealed_key_shape [] 1 "aes_easy" "SECRET12".toList 5).2.2.1
     (by decide) (fun g => rfl),
   (C1_get_revealed_key_shape _ 1 "aes_easy" "SECRET12".toList 5).2.2.2
     (by decide) (by decide)⟩

/-- C2: for every non-empty key and part count in `[1, 8]`, concatenating
the `value` fields of `split_key key n` in index order reproduces the key
exactly. -/
theorem C2_split_key_roundtrip (key : List Char) (n : Nat)
    (hk : key ≠ []) (h1 : 1 ≤ n) (h8 : n ≤ 8) :
    ((split_key key n).map KeyPart.value).flatten = key :=
  split_key_flatten key n h1

/-- C2 witness: the key `"SECRET12"` split five ways reassembles exactly. -/
theorem C2_split_key_roundtrip_witness :
    ((split_key "SECRET12".toList 5).map KeyPart.value).flatten =
      "SECRET12".toList :=
  C2_split_key_roundtrip "SECRET12".toList 5 (by decide) (by decide)
    (by decide)

/-- C3: `split_key` returns the empty list on an empty key; otherwise (for a
positive part count) the first `len mod n` parts have length `base + 1`, the
remaining parts have length `base`, zero-size parts are omitted (every
produced part is non-empty, and every in-range index of positive computed
size is produced), and part `i` carries game type
`[wheel, quiz, memory, slider, scramble][i mod 5]`. -/
theorem C3_split_key_partition (key : List Char) (n : Nat) :
    (key = [] → split_key key n = []) ∧
    (1 ≤ n →
      (∀ p ∈ split_key key n,
        p.value.length =
          key.length / n + (if p.index < key.length % n then 1 else 0) ∧
        0 < p.value.length ∧
        p.index < n ∧
        p.game_type = minigame_types.getD (p.index % 5) "") ∧
      (∀ i, i < n →
        0 < key.length / n + (if i < key.length % n then 1 else 0) →
        ∃ p ∈ split_key key n, p.index = i)) := by
  constructor
  · intro hk; rw [split_key, if_pos hk]
  · intro hn
    constructor
    · intro p hp
      by_cases hk : key = []
      · subst hk; rw [split_key, if_pos rfl] at hp
        exact absurd hp (List.not_mem_nil p)
      · rw [split_key, if_neg hk] at hp
        have hm := splitKeyLoop_mem_spec key (key.length / n)
          (key.length % n) n 0 0
          (le_of_eq (by rw [Nat.zero_add, sumSizes_total _ _ hn])) p hp
        refine ⟨hm.1, hm.2.1, by have := hm.2.2.2.2; omega, ?_⟩
        rw [hm.2.2.1]
        rfl
    · intro i hi hsize
      by_cases hk : key = []
      · exfalso; subst hk; simp at hsize
      · rw [split_key, if_neg hk]
        exact splitKeyLoop_exists key (key.length / n) (key.length % n)
          n 0 0 i (Nat.zero_le _) (by omega) hsize

/-- C3 witness: the empty key yields no parts; `"SECRET12"` split five ways
contains the part `⟨0, "SE", wheel⟩` of length `base + 1 = 2`, and a part
with index 3 exists. -/
theorem C3_split_key_partition_witness :
    split_key [] 5 = [] ∧
    ((⟨0, ['S', 'E'], "wheel", false⟩ : KeyPart).value.length =
        "SECRET12".toList.length / 5 +
          (if (⟨0, ['S', 'E'], "wheel", false⟩ : KeyPart).index <
            "SECRET12".toList.length % 5 then 1 else 0) ∧
      0 < (⟨0, ['S', 'E'], "wheel", false⟩ : KeyPart).value.length ∧
      (⟨0, ['S', 'E'], "wheel", false⟩ : KeyPart).index < 5 ∧
      (⟨0, ['S', 'E'], "wheel", false⟩ : KeyPart).game_type =
        minigame_types.getD
          ((⟨0, ['S', 'E'], "wheel", false⟩ : KeyPart).index % 5) "") ∧
    (∃ p ∈ split_key "SECRET12".toList 5, p.index = 3) :=
  ⟨(C3_split_key_partition [] 5).1 rfl,
   ((C3_split_key_partition "SECRET12".toList 5).2 (by decide)).1
     ⟨0, ['S', 'E'], "wheel", false⟩ (by decide),
   ((C3_split_key_partition "SECRET12".toList 5).2 (by decide)).2
     3 (by decide) (by decide)⟩

/-- Repeated sequential application of `mark_game_completed` with fixed
arguments. -/
def markIter (u : Nat) (c g : String) (rp : List Char) (pi : Nat) :
    Nat → Store → Store
  | 0, s => s
  | n + 1, s => markIter u c g rp pi n (mark_game_completed s u c g rp pi)

/-- A store holds no row for a triple exactly when `has_completed` denies it. -/
theorem has_completed_false_iff (s : Store) (u : Nat) (c g : String) :
    has_completed s u c g = false ↔ countTriple s u c g = 0 := by
  rw [← Bool.not_eq_true]
  simp only [has_completed, countTriple, List.find?_isSome,
    List.length_eq_zero, List.filter_eq_nil_iff]
  push_neg
  constructor
  · intro h r hr
    simpa using h r hr
  · intro h r hr hm
    exact absurd hm (by simpa using h r hr)

/-- Marking a triple not yet present appends exactly one matching row. -/
theorem countTriple_mark_fresh (s : Store) (u : Nat) (c g : String)
    (rp : List Char) (pi : Nat) (h : countTriple s u c g = 0) :
    countTriple (mark_game_completed s u c g rp pi) u c g = 1 := by
  rw [mark_game_completed,
    if_neg (by rw [Bool.not_eq_true, has_completed_false_iff]; exact h),
    mark_completed, countTriple, List.filter_append, List.length_append]
  have h0 : (List.filter (tripleMatch u c g) s).length = 0 := h
  rw [h0]
  simp [tripleMatch]

/-- Once the triple is present, further sequential calls are no-ops. -/
theorem markIter_fixed (u : Nat) (c g : String) (rp : List Char) (pi : Nat) :
    ∀ n s, has_completed s u c g = true →
      markIter u c g rp pi n s = s := by
  intro n
  induction n with
  | zero => intro s _; rfl
  | succ n ih =>
    intro s h
    rw [markIter, mark_game_completed, if_pos h]
    exact ih s h

/-- C4: `mark_game_completed` is idempotent — with a row already present for
the `(user, challenge, game_type)` triple a further call leaves the store
unchanged, and starting from a store with no row for the triple, any
positive number of sequential calls leaves exactly one row for it. -/
theorem C4_mark_game_completed_idempotent (store : Store) (u : Nat)
    (c g : String) (rp : List Char) (pi : Nat) :
    (has_completed store u c g = true →
      mark_game_completed store u c g rp pi = store) ∧
    (countTriple store u c g = 0 → ∀ n, 1 ≤ n →
      countTriple (markIter u c g rp pi n store) u c g = 1) := by
  constructor
  · intro h; rw [mark_game_completed, if_pos h]
  · intro h0 n hn
    obtain ⟨m, rfl⟩ : ∃ m, n = m + 1 := ⟨n - 1, by omega⟩
    rw [markIter]
    have h1 := countTriple_mark_fresh store u c g rp pi h0
    have hc : has_completed (mark_game_completed store u c g rp pi) u c g
        = true := by
      cases hb : has_completed (mark_game_completed store u c g rp pi)
          u c g with
      | true => rfl
      | false =>
        rw [has_completed_false_iff] at hb
        rw [hb] at h1
        exact absurd h1 (by decide)
    rw [markIter_fixed u c g rp pi m _ hc]
    exact h1

/-- C4 witness: on the empty store, three sequential completions of
`(1, "aes_easy", "wheel")` leave exactly one row, and a second call on the
resulting store is a no-op. -/
theorem C4_mark_game_completed_idempotent_witness :
    countTriple (markIter 1 "aes_easy" "wheel" ['S', 'E'] 0 3 []) 1
      "aes_easy" "wheel" = 1 ∧
    mark_game_completed [⟨1, "aes_easy", "wheel", 0, ['S', 'E']⟩] 1
      "aes_easy" "wheel" ['S', 'E'] 0 =
      [⟨1, "aes_easy", "wheel", 0, ['S', 'E']⟩] :=
  ⟨(C4_mark_game_completed_idempotent [] 1 "aes_easy" "wheel" ['S', 'E']
      0).2 rfl 3 (by decide),
   (C4_mark_game_completed_idempotent [⟨1, "aes_easy", "wheel", 0,
      ['S', 'E']⟩] 1 "aes_easy" "wheel" ['S', 'E'] 0).1 (by decide)⟩

/-- The indexed scoring loop of `verify_quiz_answers` equals a positional
count over the question/answer zip: a point exactly when the answer at a
question's index exists and equals that question's stored correct index. -/
theorem verifyQuizLoop_eq (answers : List Nat) :
    ∀ (qs : List QuizQuestion) (i : Nat),
      verifyQuizLoop qs answers i =
        (qs.zip (answers.drop i)).countP (fun p => p.2 == p.1.answer) := by
  intro qs
  induction qs with
  | nil => intro i; simp [verifyQuizLoop]
  | cons q qs ih =>
    intro i
    rw [verifyQuizLoop]
    by_cases h : i < answers.length
    · rw [dif_pos h]
      have hdrop : answers.drop i =
          answers.get ⟨i, h⟩ :: answers.drop (i + 1) := by
        rw [List.get_eq_getElem]
        exact (List.getElem_cons_drop answers i h).symm
      rw [hdrop, List.zip_cons_cons, List.countP_cons, ih (i + 1)]
      by_cases hb : answers.get ⟨i, h⟩ == q.answer <;> simp [hb] <;> omega
    · rw [dif_neg h]
      have h1 : answers.drop i = [] := List.drop_eq_nil_of_le (by omega)
      have h2 : answers.drop (i + 1) = [] := List.drop_eq_nil_of_le (by omega)
      rw [h1, ih (i + 1), h2]
      simp

/-- C7: `verify_quiz_answers` counts one point per index whose submitted
answer exists and equals the stored correct index (missing answers are
wrong) and returns `(correct_count, number_of_questions)`; `quiz_submit`
succeeds, and persists the completion, exactly when `correct_count ≥ 2`. -/
theorem C7_quiz_scoring (questions : List QuizQuestion) (answers : List Nat)
    (u : Nat) (c : String) (qd : QuizSession) (store : Store) :
    verify_quiz_answers questions answers =
      ((questions.zip answers).countP (fun p => p.2 == p.1.answer),
        questions.length) ∧
    ((quiz_submit u c (some qd) answers store).1.success = true ↔
      2 ≤ (verify_quiz_answers qd.questions answers).1) ∧
    ((quiz_submit u c (some qd) answers store).1.success = true →
      (quiz_submit u c (some qd) answers store).2.1 =
        mark_game_completed store u c "quiz" qd.key_part) ∧
    ((quiz_submit u c (some qd) answers store).1.success = false →
      (quiz_submit u c (some qd) answers store).2.1 = store) := by
  refine ⟨?_, ?_, ?_, ?_⟩
  · rw [verify_quiz_answers, verifyQuizLoop_eq, List.drop_zero]
  · by_cases h : 2 ≤ (verify_quiz_answers qd.questions answers).1 <;>
      simp [quiz_submit, h]
  · by_cases h : 2 ≤ (verify_quiz_answers qd.questions answers).1 <;>
      simp [quiz_submit, h]
  · by_cases h : 2 ≤ (verify_quiz_answers qd.questions answers).1 <;>
      simp [quiz_submit, h]

/-- C7 witness: with three questions, two correct answers make `quiz_submit`
succeed and one correct answer makes it fail. -/
theorem C7_quiz_scoring_witness :
    2 ≤ (verify_quiz_answers
      [⟨"a", [], 0⟩, ⟨"b", [], 2⟩, ⟨"c", [], 1⟩] [0, 2, 9]).1 ∧
    (quiz_submit 1 "aes_easy"
      (some ⟨[⟨"a", [], 0⟩, ⟨"b", [], 2⟩, ⟨"c", [], 1⟩], ['C', 'R']⟩)
      [0, 2, 9] []).1.success = true ∧
    (quiz_submit 1 "aes_easy"
      (some ⟨[⟨"a", [], 0⟩, ⟨"b", [], 2⟩, ⟨"c", [], 1⟩], ['C', 'R']⟩)
      [0, 9, 9] []).1.success = false :=
  ⟨by decide,
   ((C7_quiz_scoring [⟨"a", [], 0⟩, ⟨"b", [], 2⟩, ⟨"c", [], 1⟩] [0, 2, 9]
      1 "aes_easy"
      ⟨[⟨"a", [], 0⟩, ⟨"b", [], 2⟩, ⟨"c", [], 1⟩], ['C', 'R']⟩ []).2.1).mpr
    (by decide),
   by decide⟩

/-- The shuffle accepted by the `while` loop is one of the shuffle outcomes
and differs from the word. -/
theorem findScramble_spec (word : List Char) :
    ∀ (l : List (List Char)) (s : List Char),
      findScramble word l = some s → s ∈ l ∧ s ≠ word := by
  intro l
  induction l with
  | nil => intro s h; simp [findScramble] at h
  | cons x xs ih =>
    intro s h
    rw [findScramble] at h
    by_cases hx : x = word
    · rw [if_pos hx] at h
      obtain ⟨h1, h2⟩ := ih s h
      exact ⟨List.mem_cons_of_mem _ h1, h2⟩
    · rw [if_neg hx] at h
      cases h
      exact ⟨List.mem_cons_self _ _, hx⟩

/-- The selected pair is always one of the ten fixed scramble entries. -/
theorem chosenPair_mem (pick : Nat) : chosenPair pick ∈ SCRAMBLE_WORDS := by
  have hlt : pick % SCRAMBLE_WORDS.length < SCRAMBLE_WORDS.length :=
    Nat.mod_lt _ (by decide)
  rw [chosenPair, List.getD_eq_getElem _ _ hlt]
  exact List.getElem_mem hlt

/-- C9: whenever `generate_scramble` returns, its `scrambled` field is a
character permutation of its `word` field different from the word itself
(given that each shuffle outcome permutes the chosen word, as
`random.shuffle` guarantees), and `(word, hint)` is one of the ten fixed
pairs of `SCRAMBLE_WORDS`. -/
theorem C9_generate_scramble_spec (pick : Nat) (shuffles : List (List Char))
    (out : ScrambleOut)
    (hgen : generate_scramble pick shuffles = some out)
    (hperm : ∀ s ∈ shuffles, s.Perm out.word.toList) :
    out.scrambled.toList.Perm out.word.toList ∧
    out.scrambled ≠ out.word ∧
    (out.word, out.hint) ∈ SCRAMBLE_WORDS := by
  unfold generate_scramble at hgen
  cases hf : findScramble (chosenPair pick).1.toList shuffles with
  | none => rw [hf] at hgen; cases hgen
  | some s =>
    rw [hf] at hgen
    obtain ⟨hmem, hne⟩ := findScramble_spec _ shuffles s hf
    cases hgen
    refine ⟨hperm s hmem, ?_, ?_⟩
    · intro hcon
      apply hne
      have h2 := congrArg String.toList hcon
      simpa using h2
    · have h3 := chosenPair_mem pick
      simpa using h3

/-- C9 witness: with the first word `"ENCRYPTION"` and its reversal as the
sole shuffle outcome, generation returns that reversal, a permutation of and
different from the word, whose pair is in the fixed list. -/
theorem C9_generate_scramble_spec_witness :
    generate_scramble 0 ["NOITPYRCNE".toList] =
      some ⟨"NOITPYRCNE", "ENCRYPTION", "Process of encoding data"⟩ ∧
    (∀ s ∈ (["NOITPYRCNE".toList] : List (List Char)),
      s.Perm ("ENCRYPTION" : String).toList) ∧
    ("NOITPYRCNE" : String).toList.Perm ("ENCRYPTION" : String).toList ∧
    ("NOITPYRCNE" : String) ≠ "ENCRYPTION" ∧
    ("ENCRYPTION", "Process of encoding data") ∈ SCRAMBLE_WORDS := by
  have hgen : generate_scramble 0 ["NOITPYRCNE".toList] =
      some ⟨"NOITPYRCNE", "ENCRYPTION", "Process of encoding data"⟩ := by
    decide
  have hperm : ∀ s ∈ (["NOITPYRCNE".toList] : List (List Char)),
      s.Perm (ScrambleOut.mk "NOITPYRCNE" "ENCRYPTION"
        "Process of encoding data").word.toList := by decide
  have h := C9_generate_scramble_spec 0 ["NOITPYRCNE".toList]
    ⟨"NOITPYRCNE", "ENCRYPTION", "Process of encoding data"⟩ hgen hperm
  exact ⟨hgen, hperm, h.1, h.2.1, h.2.2⟩
